import Mathlib

/-!
# Verification of the ILHealth gateway (`src/server.py`)

The gateway holds a static subject catalog, builds request URLs from string
templates, issues GET requests, recursively strips leading/trailing
whitespace from every string in the returned JSON tree (`clean_json`), and
wraps results in a `{status, data}` envelope.

The embedding below models JSON values as an inductive tree, Python
exceptions as `Except` errors, and the HTTP transport as an explicit
`fetch : String → HttpResponse` argument.  Each tool operation returns the
list of URLs it requested together with its result, so that claims about
"no network call is made" and "the URL depends only on this parameter" can
be stated directly.
-/

namespace ILHealth

/-- JSON values as produced by `response.json()`: Python dicts become ordered
key/value lists, Python lists become lists, and scalars keep their kind.
(The numeric carrier is irrelevant to every property below; `Int` stands in
for Python numbers.) -/
inductive Json where
  | null : Json
  | bool (b : Bool) : Json
  | num (n : Int) : Json
  | str (s : String) : Json
  | arr (elems : List Json) : Json
  | obj (members : List (String × Json)) : Json
deriving Inhabited

/-- The characters removed by Python's `str.strip()` (ASCII whitespace;
`\x0b` and `\x0c` included for faithfulness). -/
def isSpace (c : Char) : Bool :=
  c == ' ' || c == '\t' || c == '\n' || c == '\r' ||
  c == Char.ofNat 11 || c == Char.ofNat 12

/-- Drop leading whitespace characters. -/
def stripLeft (cs : List Char) : List Char := cs.dropWhile isSpace

/-- Drop trailing whitespace characters. -/
def stripRight (cs : List Char) : List Char := (cs.reverse.dropWhile isSpace).reverse

/-- Python's `str.strip()`: remove leading and trailing whitespace,
leaving interior characters untouched. -/
def pyStrip (s : String) : String := String.mk (stripRight (stripLeft s.data))

mutual
/-- `clean_json` from `src/server.py` (defined identically inside
`get_metadata`, `get_data` and `get_links`): recurse into dict values
preserving keys, recurse into list elements preserving order, strip strings,
return every other scalar unchanged. -/
def clean_json : Json → Json
  | .obj members => .obj (cleanMembers members)
  | .arr elems => .arr (cleanElems elems)
  | .str s => .str (pyStrip s)
  | .num n => .num n
  | .bool b => .bool b
  | .null => .null

/-- The dict comprehension `{k: clean_json(v) for k, v in obj.items()}`. -/
def cleanMembers : List (String × Json) → List (String × Json)
  | [] => []
  | (k, v) :: rest => (k, clean_json v) :: cleanMembers rest

/-- The list comprehension `[clean_json(item) for item in obj]`. -/
def cleanElems : List Json → List Json
  | [] => []
  | x :: rest => clean_json x :: cleanElems rest
end

/-- Member-wise induction over the nested `Json` tree. -/
theorem Json.memInduction {P : Json → Prop}
    (hnull : P .null) (hbool : ∀ b, P (.bool b)) (hnum : ∀ n, P (.num n))
    (hstr : ∀ s, P (.str s))
    (harr : ∀ elems, (∀ x ∈ elems, P x) → P (.arr elems))
    (hobj : ∀ members, (∀ kv ∈ members, P kv.2) → P (.obj members)) :
    ∀ t, P t
  | .null => hnull
  | .bool b => hbool b
  | .num n => hnum n
  | .str s => hstr s
  | .arr elems =>
    harr elems (fun x hx =>
      have : sizeOf x < sizeOf (Json.arr elems) := by
        have := List.sizeOf_lt_of_mem hx
        simp only [Json.arr.sizeOf_spec]
        omega
      Json.memInduction hnull hbool hnum hstr harr hobj x)
  | .obj members =>
    hobj members (fun kv hkv =>
      have : sizeOf kv.2 < 1 + sizeOf members := by
        have h1 := List.sizeOf_lt_of_mem hkv
        obtain ⟨k, v⟩ := kv
        simp only [Prod.mk.sizeOf_spec] at h1 ⊢
        omega
      Json.memInduction hnull hbool hnum hstr harr hobj kv.2)
termination_by t => sizeOf t

/-- `cleanMembers` is the member-wise map of `clean_json` over the values. -/
theorem cleanMembers_eq (members : List (String × Json)) :
    cleanMembers members = members.map (fun kv => (kv.1, clean_json kv.2)) := by
  induction members with
  | nil => rfl
  | cons kv rest ih => obtain ⟨k, v⟩ := kv; simp [cleanMembers, ih]

/-- `cleanElems` is the element-wise map of `clean_json`. -/
theorem cleanElems_eq (elems : List Json) :
    cleanElems elems = elems.map clean_json := by
  induction elems with
  | nil => rfl
  | cons x rest ih => simp [cleanElems, ih]

theorem dropWhile_dropWhile (p : Char → Bool) (l : List Char) :
    (l.dropWhile p).dropWhile p = l.dropWhile p := by
  induction l with
  | nil => rfl
  | cons a l ih =>
    cases h : p a <;> simp [List.dropWhile_cons, h, ih]

theorem stripLeft_stripLeft (l : List Char) : stripLeft (stripLeft l) = stripLeft l :=
  dropWhile_dropWhile isSpace l

theorem stripRight_stripRight (l : List Char) :
    stripRight (stripRight l) = stripRight l := by
  simp [stripRight, dropWhile_dropWhile]

/-- `stripRight l` is an initial segment of `l`: the rest is the reversed
run of trailing whitespace. -/
theorem stripRight_append (l : List Char) :
    l = stripRight l ++ (l.reverse.takeWhile isSpace).reverse := by
  have h : l = (l.reverse.takeWhile isSpace ++ l.reverse.dropWhile isSpace).reverse := by
    rw [List.takeWhile_append_dropWhile, List.reverse_reverse]
  conv_lhs => rw [h]
  rw [List.reverse_append]
  rfl

/-- A list fixed by `stripLeft` is still fixed by `stripLeft` after
`stripRight`. -/
theorem stripLeft_stripRight_of_fixed {m : List Char} (hm : stripLeft m = m) :
    stripLeft (stripRight m) = stripRight m := by
  cases h : stripRight m with
  | nil => simp [stripLeft]
  | cons x xs =>
    have hdecomp := stripRight_append m
    rw [h] at hdecomp
    have hx : isSpace x = false := by
      by_contra hx
      have hx' : isSpace x = true := by
        cases hxx : isSpace x
        · exact absurd hxx hx
        · rfl
      have heq : m = stripLeft (xs ++ (m.reverse.takeWhile isSpace).reverse) := by
        conv_lhs => rw [← hm, hdecomp]
        simp [stripLeft, List.dropWhile_cons, hx']
      have hlen := congrArg List.length heq
      have hle := (List.dropWhile_sublist (p := isSpace)
        (l := xs ++ (m.reverse.takeWhile isSpace).reverse)).length_le
      have hlen2 := congrArg List.length hdecomp
      simp only [stripLeft] at hlen
      simp only [List.length_cons, List.length_append] at hlen hle hlen2
      omega
    simp [stripLeft, List.dropWhile_cons, hx]

/-- Python's `strip` is idempotent. -/
theorem pyStrip_idem (s : String) : pyStrip (pyStrip s) = pyStrip s := by
  show String.mk (stripRight (stripLeft (stripRight (stripLeft s.data))))
      = String.mk (stripRight (stripLeft s.data))
  rw [stripLeft_stripRight_of_fixed (stripLeft_stripLeft s.data),
    stripRight_stripRight]

/-- `clean_json` is idempotent (the content of C1). -/
theorem clean_json_idem (t : Json) : clean_json (clean_json t) = clean_json t := by
  induction t using Json.memInduction with
  | hnull => rfl
  | hbool b => rfl
  | hnum n => rfl
  | hstr s => simp [clean_json, pyStrip_idem]
  | harr elems ih =>
    simp only [clean_json, cleanElems_eq, List.map_map]
    congr 1
    exact List.map_congr_left (fun x hx => ih x hx)
  | hobj members ih =>
    simp only [clean_json, cleanMembers_eq, List.map_map]
    congr 1
    exact List.map_congr_left (fun kv hkv => by simp [ih kv hkv])

/-! ## The gateway: catalog, errors, and the four tool operations -/

/-- The `{name, description}` record of one catalog entry. -/
structure SubjectInfo where
  name : String
  description : String

/-- `SUBJECTS_INFO` from `src/server.py`: the static subject catalog,
in source order. -/
def SUBJECTS_INFO : List (String × SubjectInfo) :=
  [("warCasualties",
    ⟨"War Casualties",
     "Information about war-related medical cases and emergency support contacts"⟩),
   ("medicalServices",
    ⟨"Medical Services Availability",
     "Information about availability of various medical services including pharmacies, HMO services, family health centers"⟩),
   ("beaches",
    ⟨"Beaches",
     "Information about beach conditions and facilities"⟩),
   ("HMO_insured_main",
    ⟨"HMO Insurance",
     "Information about health insurance through HMOs"⟩),
   ("childKi",
    ⟨"Child Development",
     "Information about child development services"⟩),
   ("childCheckup",
    ⟨"Child Checkups",
     "Information about child medical checkup services"⟩),
   ("serviceQuality",
    ⟨"Service Quality",
     "Quality measurements, patient experience surveys, and service complaints across medical facilities"⟩)]

/-- `SUBJECTS = list(SUBJECTS_INFO.keys())`. -/
def SUBJECTS : List String := SUBJECTS_INFO.map Prod.fst

def METADATA_BASE_URL : String := "https://datadashboard.health.gov.il/api/content/dashboard"

def DATA_BASE_URL : String := "https://datadashboard.health.gov.il/api"

/-- The `ValueError` message raised on an unknown subject:
`f"Invalid subject. Must be one of: {', '.join(SUBJECTS)}"`. -/
def invalidSubjectMessage : String :=
  "Invalid subject. Must be one of: " ++ String.intercalate ", " SUBJECTS

/-- Python exceptions the gateway can raise: `ValueError` on a bad subject,
`httpx.HTTPStatusError` from `raise_for_status`, and the uncaught lookup
failures (`KeyError`, `TypeError`, `AttributeError`) on malformed upstream
JSON. -/
inductive PyError where
  | invalidArgument (msg : String) : PyError
  | httpStatusError (status : Nat) : PyError
  | keyError (key : String) : PyError
  | typeError : PyError
  | attributeError : PyError
deriving DecidableEq

/-- An upstream HTTP response: status code and parsed JSON body. -/
structure HttpResponse where
  status : Nat
  body : Json

/-- httpx `response.raise_for_status()` passes exactly the 2xx range. -/
def isSuccessStatus (status : Nat) : Bool := 200 ≤ status && status ≤ 299

/-- Python `obj[key]` on a JSON value: `KeyError` when the key is absent,
`TypeError` when `obj` is not a dict. -/
def pySubscript (j : Json) (key : String) : Except PyError Json :=
  match j with
  | .obj members =>
    match members.lookup key with
    | some v => .ok v
    | none => .error (.keyError key)
  | _ => .error .typeError

/-- Python `obj.get(key, default)`: `AttributeError` when `obj` is not a
dict (no `.get` method), otherwise total with the given default. -/
def pyDictGet (j : Json) (key : String) (dflt : Json) : Except PyError Json :=
  match j with
  | .obj members =>
    match members.lookup key with
    | some v => .ok v
    | none => .ok dflt
  | _ => .error .attributeError

/-- Python `obj.items()`: `AttributeError` when `obj` is not a dict. -/
def pyItems (j : Json) : Except PyError (List (String × Json)) :=
  match j with
  | .obj members => .ok members
  | _ => .error .attributeError

/-- Iterating `for x in v` where the loop body then treats `x` as a JSON
value: only lists are iterable that way here; anything else fails. -/
def pyList (j : Json) : Except PyError (List Json) :=
  match j with
  | .arr elems => .ok elems
  | _ => .error .typeError

/-- Python truthiness of the optional `sectionId` parameter
(`if sectionId:`): `None` and `""` are falsy. -/
def pyTruthy : Option String → Bool
  | none => false
  | some s => !(s == "")

/-- Python truthiness of a JSON value (`if card.get("embedLink"):`). -/
def pyTruthyJson : Json → Bool
  | .null => false
  | .bool b => b
  | .num n => !(n == 0)
  | .str s => !(s == "")
  | .arr elems => !elems.isEmpty
  | .obj members => !members.isEmpty

/-- Python `v.strip()` where `v` is a JSON value: `AttributeError` unless
`v` is a string. -/
def pyStripJson (j : Json) : Except PyError String :=
  match j with
  | .str s => .ok (pyStrip s)
  | _ => .error .attributeError

/-- `Except`-valued map over a list, failing at the first failing element:
the Python `for` loop / comprehension over fallible bodies. -/
def mapExcept {α β : Type} (f : α → Except PyError β) : List α → Except PyError (List β)
  | [] => .ok []
  | x :: rest => do
    let y ← f x
    let ys ← mapExcept f rest
    pure (y :: ys)

/-- The `cleaned_card` dict built inside `get_metadata`'s card loop, field
accesses evaluated in source order. -/
def cleanCard (card : Json) : Except PyError Json := do
  let id ← pyStripJson (← pySubscript card "id")
  let ep ← pyStripJson (← pySubscript card "endPointName")
  let api ← pyStripJson (← pySubscript card "apiSrc")
  let tp ← pyStripJson (← pySubscript card "transportProject")
  let sec ← pyStripJson (← pySubscript card "sectionId")
  let comp ← pyStripJson (← pySubscript card "componentName")
  let embedRaw ← pyDictGet card "embedLink" Json.null
  let embed ←
    if pyTruthyJson embedRaw then do
      let e ← pyDictGet card "embedLink" (Json.str "")
      pure (Json.str (← pyStripJson e))
    else pure Json.null
  pure (Json.obj [("id", .str id), ("endPointName", .str ep), ("apiSrc", .str api),
    ("transportProject", .str tp), ("section", .str sec), ("componentName", .str comp),
    ("embedLink", embed)])

/-- The `cleaned_section` dict built inside `get_metadata`'s section loop:
`{k: v.strip() if isinstance(v, str) else v for k, v in section.items()}`. -/
def cleanSection (sec : Json) : Except PyError Json := do
  let items ← pyItems sec
  pure (Json.obj (items.map (fun kv =>
    match kv.2 with
    | .str s => (kv.1, Json.str (pyStrip s))
    | v => (kv.1, v))))

/-- `get_available_subjects` from `src/server.py`: a pure constant — it
takes no input and cannot fail, which is why its model is a plain `Json`
value rather than an `Except`. -/
def get_available_subjects : Json :=
  Json.obj [("status", Json.str "success"),
    ("data", Json.obj [("subjects", Json.arr (SUBJECTS_INFO.map (fun p =>
      Json.obj [("id", Json.str p.1), ("name", Json.str p.2.name),
        ("description", Json.str p.2.description)])))])]

/-- The processing `get_metadata` performs on the already-trimmed metadata
document: re-shape `cards` (default `[]`) into cleaned card records and
`sections` (default `[]`) into cleaned section records, then build the
envelope. -/
def metadataBody (metadata : Json) : Except PyError Json := do
  let cardsJ ← pyDictGet metadata "cards" (Json.arr [])
  let cards ← pyList cardsJ
  let availableEndpoints ← mapExcept cleanCard cards
  let sectionsJ ← pyDictGet metadata "sections" (Json.arr [])
  let sections ← pyList sectionsJ
  let cleanedSections ← mapExcept cleanSection sections
  pure (Json.obj [("status", Json.str "success"),
    ("data", Json.obj [("availableEndpoints", Json.arr availableEndpoints),
      ("sections", Json.arr cleanedSections)])])

/-- `get_metadata` from `src/server.py`, the HTTP GET modelled by `fetch`.
The first component is the list of URLs actually requested; the second the
returned envelope or the raised exception. -/
def get_metadata (subject : String) (fetch : String → HttpResponse) :
    List String × Except PyError Json :=
  if subject ∈ SUBJECTS then
    let url := METADATA_BASE_URL ++ "/" ++ subject
    let resp := fetch url
    if isSuccessStatus resp.status then
      ([url], metadataBody (clean_json resp.body))
    else ([url], .error (.httpStatusError resp.status))
  else ([], .error (.invalidArgument invalidSubjectMessage))

/-- `get_data` from `src/server.py`: the URL is built from `endPointName`
only; `transportProject` is merely echoed in the metadata block. -/
def get_data (subject transportProject endPointName : String)
    (fetch : String → HttpResponse) : List String × Except PyError Json :=
  if subject ∈ SUBJECTS then
    let url := DATA_BASE_URL ++ "/" ++ endPointName
    let resp := fetch url
    if isSuccessStatus resp.status then
      ([url], .ok (Json.obj [("status", Json.str "success"),
        ("metadata", Json.obj [("subject", Json.str subject),
          ("transportProject", Json.str transportProject),
          ("endpoint", Json.str endPointName)]),
        ("data", clean_json resp.body)]))
    else ([url], .error (.httpStatusError resp.status))
  else ([], .error (.invalidArgument invalidSubjectMessage))

/-- Python `link["sectionId"] == sectionId` where `sectionId` is a string:
true exactly when the value is that string. -/
def jsonEqStr (j : Json) (s : String) : Bool :=
  match j with
  | .str t => t == s
  | _ => false

/-- The comprehension `[link for link in links if link["sectionId"] == sectionId]`:
fails with `KeyError`/`TypeError` at the first link without the field. -/
def filterLinks (sid : String) : List Json → Except PyError (List Json)
  | [] => .ok []
  | link :: rest => do
    let v ← pySubscript link "sectionId"
    let rest' ← filterLinks sid rest
    if jsonEqStr v sid then pure (link :: rest') else pure rest'

/-- The success envelope `get_links` returns. -/
def linksEnvelope (links : Json) : Json :=
  Json.obj [("status", Json.str "success"), ("data", Json.obj [("links", links)])]

/-- The processing `get_links` performs on the already-trimmed metadata
document: read `links` (default `[]`) and filter only when `sectionId` is
truthy. -/
def linksBody (sectionId : Option String) (metadata : Json) : Except PyError Json := do
  let links ← pyDictGet metadata "links" (Json.arr [])
  if pyTruthy sectionId then do
    let linkList ← pyList links
    let filtered ← filterLinks (sectionId.getD "") linkList
    pure (linksEnvelope (Json.arr filtered))
  else pure (linksEnvelope links)

/-- `get_links` from `src/server.py`: fetches the same metadata document as
`get_metadata`, trims it, reads `links` (defaulting to `[]`), and filters by
`sectionId` only when that parameter is truthy. -/
def get_links (subject : String) (sectionId : Option String)
    (fetch : String → HttpResponse) : List String × Except PyError Json :=
  if subject ∈ SUBJECTS then
    let url := METADATA_BASE_URL ++ "/" ++ subject
    let resp := fetch url
    if isSuccessStatus resp.status then
      ([url], linksBody sectionId (clean_json resp.body))
    else ([url], .error (.httpStatusError resp.status))
  else ([], .error (.invalidArgument invalidSubjectMessage))

/-! ## Auxiliary lemmas -/

/-- A stripped string sits inside the original between two all-whitespace
runs: interior characters are untouched. -/
theorem pyStrip_decomp (s : String) :
    ∃ pre suf, s.data = pre ++ (pyStrip s).data ++ suf
      ∧ pre.all isSpace = true ∧ suf.all isSpace = true := by
  refine ⟨s.data.takeWhile isSpace,
    ((stripLeft s.data).reverse.takeWhile isSpace).reverse, ?_, ?_, ?_⟩
  · have h1 : s.data = s.data.takeWhile isSpace ++ stripLeft s.data :=
      (List.takeWhile_append_dropWhile (p := isSpace) (l := s.data)).symm
    have h2 := stripRight_append (stripLeft s.data)
    calc s.data = s.data.takeWhile isSpace ++ stripLeft s.data := h1
      _ = s.data.takeWhile isSpace ++ (stripRight (stripLeft s.data)
            ++ ((stripLeft s.data).reverse.takeWhile isSpace).reverse) := by rw [← h2]
      _ = s.data.takeWhile isSpace ++ (pyStrip s).data
            ++ ((stripLeft s.data).reverse.takeWhile isSpace).reverse := by
          simp [pyStrip]
  · rw [List.all_eq_true]
    intro c hc
    exact List.mem_takeWhile_imp hc
  · rw [List.all_eq_true]
    intro c hc
    rw [List.mem_reverse] at hc
    exact List.mem_takeWhile_imp hc

/-! ## C1, C2: the whitespace-trim pass -/

/-- C1: the whitespace-trim function `clean_json` is idempotent: for every
JSON value `T`, `trim (trim T) = trim T`. -/
theorem spec_C1 (t : Json) : clean_json (clean_json t) = clean_json t :=
  clean_json_idem t

/-- C2: `clean_json` preserves structure: a mapping maps to a mapping with
exactly the same keys with each value trimmed recursively, a sequence maps
to a sequence of the same length with elements trimmed in order, non-string
scalars are unchanged, and a string changes only by shedding leading and
trailing whitespace (the trimmed string is a contiguous run of the
original, so interior characters are untouched). -/
theorem spec_C2 :
    (∀ members, clean_json (Json.obj members)
      = Json.obj (members.map (fun kv => (kv.1, clean_json kv.2)))) ∧
    (∀ members : List (String × Json),
      (cleanMembers members).map Prod.fst = members.map Prod.fst) ∧
    (∀ elems, clean_json (Json.arr elems) = Json.arr (elems.map clean_json)) ∧
    (∀ elems : List Json, (cleanElems elems).length = elems.length) ∧
    (∀ n, clean_json (Json.num n) = Json.num n) ∧
    (∀ b, clean_json (Json.bool b) = Json.bool b) ∧
    clean_json Json.null = Json.null ∧
    (∀ s, clean_json (Json.str s) = Json.str (pyStrip s) ∧
      ∃ pre suf, s.data = pre ++ (pyStrip s).data ++ suf
        ∧ pre.all isSpace = true ∧ suf.all isSpace = true) := by
  refine ⟨?_, ?_, ?_, ?_, fun n => rfl, fun b => rfl, rfl, ?_⟩
  · intro members; simp [clean_json, cleanMembers_eq]
  · intro members; simp [cleanMembers_eq]
  · intro elems; simp [clean_json, cleanElems_eq]
  · intro elems; simp [cleanElems_eq]
  · intro s; exact ⟨rfl, pyStrip_decomp s⟩

/-! ## C8: the subject listing -/

/-- C8: `get_available_subjects` takes no input, cannot fail (its model is
a total constant), and returns the envelope holding exactly the 7 catalog
entries as `{id, name, description}`, with non-empty name and description
for each. -/
theorem spec_C8 :
    get_available_subjects
      = Json.obj [("status", Json.str "success"),
          ("data", Json.obj [("subjects", Json.arr (SUBJECTS_INFO.map (fun p =>
            Json.obj [("id", Json.str p.1), ("name", Json.str p.2.name),
              ("description", Json.str p.2.description)])))])] ∧
    SUBJECTS_INFO.length = 7 ∧
    SUBJECTS_INFO.all (fun p => !(p.2.name == "") && !(p.2.description == "")) = true :=
  ⟨rfl, by decide, by decide⟩

/-! ## C10: empty-string sectionId -/

/-- C10: calling `get_links` with `sectionId = ""` behaves exactly like
omitting `sectionId`: the empty string is falsy in Python, so the filter is
applied only for a non-empty `sectionId`. -/
theorem spec_C10 (subject : String) (fetch : String → HttpResponse) :
    get_links subject (some "") fetch = get_links subject none fetch := by
  simp [get_links, linksBody, pyTruthy]

/-! ## C4: `transportProject` noninterference in `get_data` -/

/-- Overwrite the `transportProject` entry of a JSON object with `tp`,
touching nothing else. -/
def setTPfield (tp : String) : Json → Json
  | .obj members => .obj (members.map (fun kv =>
      if kv.1 = "transportProject" then (kv.1, Json.str tp) else kv))
  | j => j

/-- Overwrite `metadata.transportProject` of an envelope with `tp`,
touching nothing else. -/
def setMetaTP (tp : String) : Json → Json
  | .obj members => .obj (members.map (fun kv =>
      if kv.1 = "metadata" then (kv.1, setTPfield tp kv.2) else kv))
  | j => j

/-- C4: for every valid subject and every pair of `transportProject`
values, `get_data` requests the same URL, built only from `endPointName`;
varying `transportProject` while holding everything else fixed changes
only the echoed `metadata.transportProject` field of the result (the
results are related by the targeted setter `setMetaTP`, which rewrites
nothing else). -/
theorem spec_C4 (subject tp₁ tp₂ endPointName : String)
    (fetch : String → HttpResponse) :
    (get_data subject tp₁ endPointName fetch).1
      = (get_data subject tp₂ endPointName fetch).1 ∧
    (∀ u ∈ (get_data subject tp₁ endPointName fetch).1,
      u = DATA_BASE_URL ++ "/" ++ endPointName) ∧
    (get_data subject tp₂ endPointName fetch).2
      = Except.map (setMetaTP tp₂) ((get_data subject tp₁ endPointName fetch).2) := by
  unfold get_data
  by_cases hs : subject ∈ SUBJECTS
  · by_cases hok : isSuccessStatus (fetch (DATA_BASE_URL ++ "/" ++ endPointName)).status = true
    all_goals simp [hs, hok, Except.map, setMetaTP, setTPfield]
  · simp [hs, Except.map]

/-! ## C5: unknown subject is rejected before any request -/

/-- `sub` occurs as a contiguous segment of the second list. -/
def hasSegment (sub : List Char) : List Char → Bool
  | [] => sub.isEmpty
  | c :: rest => sub.isPrefixOf (c :: rest) || hasSegment sub rest

/-- `msg` contains `s` as a contiguous substring. -/
def containsSegment (msg s : String) : Bool := hasSegment s.data msg.data

/-- C5: for every subject outside the catalog, each of the three
fetching operations raises `ValueError` (InvalidArgument) with the
enumerating message while issuing no request at all (its URL trace is
empty), and the message contains every one of the 7 valid subject ids. -/
theorem spec_C5 (subject : String) (fetch : String → HttpResponse)
    (tp ep : String) (sectionId : Option String) (h : subject ∉ SUBJECTS) :
    get_metadata subject fetch
      = ([], Except.error (PyError.invalidArgument invalidSubjectMessage)) ∧
    get_data subject tp ep fetch
      = ([], Except.error (PyError.invalidArgument invalidSubjectMessage)) ∧
    get_links subject sectionId fetch
      = ([], Except.error (PyError.invalidArgument invalidSubjectMessage)) ∧
    SUBJECTS.length = 7 ∧
    SUBJECTS.all (containsSegment invalidSubjectMessage) = true := by
  refine ⟨?_, ?_, ?_, by decide, by decide⟩
  · simp [get_metadata, h]
  · simp [get_data, h]
  · simp [get_links, h]

/-- A fixed fetch stub for witnesses. -/
def fetchNull : String → HttpResponse := fun _ => ⟨200, Json.null⟩

/-- Witness for C5 at the concrete unknown subject `"not_a_subject"`. -/
theorem spec_C5_witness :
    get_metadata "not_a_subject" fetchNull
      = ([], Except.error (PyError.invalidArgument invalidSubjectMessage)) ∧
    get_data "not_a_subject" "p1" "someEndpoint" fetchNull
      = ([], Except.error (PyError.invalidArgument invalidSubjectMessage)) ∧
    get_links "not_a_subject" none fetchNull
      = ([], Except.error (PyError.invalidArgument invalidSubjectMessage)) ∧
    SUBJECTS.length = 7 ∧
    SUBJECTS.all (containsSegment invalidSubjectMessage) = true :=
  spec_C5 "not_a_subject" fetchNull "p1" "someEndpoint" none (by decide)

/-! ## C6: success envelope shape -/

/-- `j` is a mapping with `status = "success"` and a `data` key. -/
def isSuccessEnvelope (j : Json) : Bool :=
  match j with
  | .obj members =>
    (match members.lookup "status" with
     | some (Json.str s) => s == "success"
     | _ => false)
    && (members.lookup "data").isSome
  | _ => false

theorem except_bind_ok {α β : Type} {x : Except PyError α}
    {f : α → Except PyError β} {b : β} (h : (x >>= f) = Except.ok b) :
    ∃ a, x = Except.ok a ∧ f a = Except.ok b := by
  cases x with
  | error e => exact absurd h (by simp [Bind.bind, Except.bind])
  | ok a => exact ⟨a, rfl, by simpa [Bind.bind, Except.bind] using h⟩

theorem isSuccessEnvelope_metadataBody {metadata j : Json}
    (h : metadataBody metadata = Except.ok j) : isSuccessEnvelope j = true := by
  unfold metadataBody at h
  obtain ⟨a₁, h₁, h⟩ := except_bind_ok h
  obtain ⟨a₂, h₂, h⟩ := except_bind_ok h
  obtain ⟨a₃, h₃, h⟩ := except_bind_ok h
  obtain ⟨a₄, h₄, h⟩ := except_bind_ok h
  obtain ⟨a₅, h₅, h⟩ := except_bind_ok h
  obtain ⟨a₆, h₆, h⟩ := except_bind_ok h
  simp only [pure, Except.pure, Except.ok.injEq] at h
  rw [← h]
  rfl

theorem isSuccessEnvelope_linksBody {sectionId : Option String} {metadata j : Json}
    (h : linksBody sectionId metadata = Except.ok j) : isSuccessEnvelope j = true := by
  unfold linksBody at h
  obtain ⟨a₁, h₁, h⟩ := except_bind_ok h
  by_cases ht : pyTruthy sectionId = true
  · rw [if_pos ht] at h
    obtain ⟨a₂, h₂, h⟩ := except_bind_ok h
    obtain ⟨a₃, h₃, h⟩ := except_bind_ok h
    simp only [pure, Except.pure, Except.ok.injEq] at h
    rw [← h]
    rfl
  · rw [if_neg ht] at h
    simp only [pure, Except.pure, Except.ok.injEq] at h
    rw [← h]
    rfl

/-- C6: every one of the four tool operations returns, on success, a
mapping whose `status` field is the string `"success"` and whose payload is
carried under the `data` key. -/
theorem spec_C6 (subject tp ep : String) (sectionId : Option String)
    (fetch : String → HttpResponse) (j₁ j₂ j₃ : Json)
    (h₁ : (get_metadata subject fetch).2 = Except.ok j₁)
    (h₂ : (get_data subject tp ep fetch).2 = Except.ok j₂)
    (h₃ : (get_links subject sectionId fetch).2 = Except.ok j₃) :
    isSuccessEnvelope get_available_subjects = true ∧
    isSuccessEnvelope j₁ = true ∧
    isSuccessEnvelope j₂ = true ∧
    isSuccessEnvelope j₃ = true := by
  by_cases hs : subject ∈ SUBJECTS
  · refine ⟨rfl, ?_, ?_, ?_⟩
    · by_cases hok : isSuccessStatus (fetch (METADATA_BASE_URL ++ "/" ++ subject)).status = true
      · simp only [get_metadata, if_pos hs, if_pos hok] at h₁
        exact isSuccessEnvelope_metadataBody h₁
      · simp [get_metadata, if_pos hs, if_neg hok] at h₁
    · by_cases hok : isSuccessStatus (fetch (DATA_BASE_URL ++ "/" ++ ep)).status = true
      · simp only [get_data, if_pos hs, if_pos hok, Except.ok.injEq] at h₂
        rw [← h₂]
        rfl
      · simp [get_data, if_pos hs, if_neg hok] at h₂
    · by_cases hok : isSuccessStatus (fetch (METADATA_BASE_URL ++ "/" ++ subject)).status = true
      · simp only [get_links, if_pos hs, if_pos hok] at h₃
        exact isSuccessEnvelope_linksBody h₃
      · simp [get_links, if_pos hs, if_neg hok] at h₃
  · simp [get_metadata, if_neg hs] at h₁

/-- A fetch stub whose body satisfies all three fetching operations. -/
def fetchWellFormed : String → HttpResponse :=
  fun _ => ⟨200, Json.obj [("cards", Json.arr []), ("sections", Json.arr []),
    ("links", Json.arr [])]⟩

/-- The envelope `get_metadata "beaches"` returns under `fetchWellFormed`. -/
def metaEnvelopeWF : Json :=
  Json.obj [("status", Json.str "success"),
    ("data", Json.obj [("availableEndpoints", Json.arr []), ("sections", Json.arr [])])]

/-- The envelope `get_data "beaches" "p1" "someEndpoint"` returns under
`fetchWellFormed`. -/
def dataEnvelopeWF : Json :=
  Json.obj [("status", Json.str "success"),
    ("metadata", Json.obj [("subject", Json.str "beaches"),
      ("transportProject", Json.str "p1"), ("endpoint", Json.str "someEndpoint")]),
    ("data", Json.obj [("cards", Json.arr []), ("sections", Json.arr []),
      ("links", Json.arr [])])]

/-- Witness for C6 at concrete inputs. -/
theorem spec_C6_witness :
    isSuccessEnvelope get_available_subjects = true ∧
    isSuccessEnvelope metaEnvelopeWF = true ∧
    isSuccessEnvelope dataEnvelopeWF = true ∧
    isSuccessEnvelope (linksEnvelope (Json.arr [])) = true :=
  spec_C6 "beaches" "p1" "someEndpoint" none fetchWellFormed
    metaEnvelopeWF dataEnvelopeWF (linksEnvelope (Json.arr []))
    (by rfl) (by rfl) (by rfl)

/-! ## C3: sectionId filtering in `get_links` -/

/-- Spec-side definition, following the claim's words rather than the
source: the links whose `sectionId` field equals `sid` under exact string
equality. -/
def specExactFilter (sid : String) (links : List Json) : List Json :=
  links.filter (fun link =>
    match pySubscript link "sectionId" with
    | .ok v => jsonEqStr v sid
    | .error _ => false)

/-- When every link carries a `sectionId` field, the source's filter
comprehension computes exactly the spec-side exact-equality filter. -/
theorem filterLinks_eq_of_total (sid : String) (links : List Json)
    (h : ∀ l ∈ links, ∃ v, pySubscript l "sectionId" = Except.ok v) :
    filterLinks sid links = Except.ok (specExactFilter sid links) := by
  induction links with
  | nil => rfl
  | cons link rest ih =>
    obtain ⟨v, hv⟩ := h link (by simp)
    have hrest := ih (fun l hl => h l (by simp [hl]))
    simp only [filterLinks, hv, hrest, specExactFilter, List.filter_cons,
      Bind.bind, Except.bind]
    cases hj : jsonEqStr v sid <;>
      simp [hj, pure, Except.pure, specExactFilter]

/-- A link in section `"S1"`. -/
def linkS1 : Json := Json.obj [("sectionId", Json.str "S1"), ("url", Json.str "u")]

/-- A fetch stub whose metadata document has one link, in section `"S1"`. -/
def fetchLinksS1 : String → HttpResponse :=
  fun _ => ⟨200, Json.obj [("links", Json.arr [linkS1])]⟩

/-- C3 counterexample: with `sectionId` supplied as the empty string `""`,
`get_links` returns the full unfiltered list, not the links whose
`sectionId` equals the supplied value (there are none), because Python's
truthiness test skips the filter for `""`. -/
theorem spec_C3_counterexample :
    (get_links "beaches" (some "") fetchLinksS1).2
      = Except.ok (linksEnvelope (Json.arr [linkS1])) ∧
    specExactFilter "" [linkS1] = [] ∧
    (Except.ok (linksEnvelope (Json.arr [linkS1])) : Except PyError Json)
      ≠ Except.ok (linksEnvelope (Json.arr (specExactFilter "" [linkS1]))) := by
  refine ⟨rfl, rfl, ?_⟩
  intro hcontra
  rw [show specExactFilter "" [linkS1] = [] from rfl] at hcontra
  simp [linksEnvelope, linkS1] at hcontra

/-- C3 (amended): when a NON-EMPTY `sectionId` is supplied, `get_links`
returns exactly those links of the trimmed `links` array whose `sectionId`
field equals it under exact string equality — a sublist, in order, of the
unfiltered result — and when `sectionId` is omitted it returns the whole
trimmed `links` array.  (A supplied but empty `sectionId` skips the filter;
see C10.) -/
theorem spec_C3_amended (subject sid : String) (fetch : String → HttpResponse)
    (links : List Json)
    (hsub : subject ∈ SUBJECTS)
    (hok : isSuccessStatus (fetch (METADATA_BASE_URL ++ "/" ++ subject)).status = true)
    (hlinks : pyDictGet (clean_json (fetch (METADATA_BASE_URL ++ "/" ++ subject)).body)
        "links" (Json.arr []) = Except.ok (Json.arr links))
    (hsid : sid ≠ "")
    (hall : ∀ l ∈ links, ∃ v, pySubscript l "sectionId" = Except.ok v) :
    (get_links subject (some sid) fetch).2
      = Except.ok (linksEnvelope (Json.arr (specExactFilter sid links))) ∧
    List.Sublist (specExactFilter sid links) links ∧
    (get_links subject none fetch).2
      = Except.ok (linksEnvelope (Json.arr links)) := by
  have htruthy : pyTruthy (some sid) = true := by
    simp [pyTruthy, hsid]
  refine ⟨?_, by unfold specExactFilter; exact List.filter_sublist links, ?_⟩
  · simp only [get_links, if_pos hsub, if_pos hok]
    unfold linksBody
    rw [hlinks]
    simp only [Bind.bind, Except.bind, htruthy, if_pos, pyList,
      Option.getD, filterLinks_eq_of_total sid links hall]
    rfl
  · simp only [get_links, if_pos hsub, if_pos hok]
    unfold linksBody
    rw [hlinks]
    simp only [Bind.bind, Except.bind, pyTruthy]
    rfl

/-- Witness for the amended C3 at concrete inputs. -/
theorem spec_C3_amended_witness :
    (get_links "beaches" (some "S1") fetchLinksS1).2
      = Except.ok (linksEnvelope (Json.arr (specExactFilter "S1" [linkS1]))) ∧
    List.Sublist (specExactFilter "S1" [linkS1]) [linkS1] ∧
    (get_links "beaches" none fetchLinksS1).2
      = Except.ok (linksEnvelope (Json.arr [linkS1])) :=
  spec_C3_amended "beaches" "S1" fetchLinksS1 [linkS1] (by decide) (by rfl) (by rfl)
    (by decide)
    (by
      intro l hl
      rw [List.mem_singleton] at hl
      subst hl
      exact ⟨Json.str "S1", rfl⟩)

/-! ## C7: missing upstream fields -/

/-- A fetch stub returning a metadata document with none of the expected
top-level keys. -/
def fetchEmptyDoc : String → HttpResponse := fun _ => ⟨200, Json.obj []⟩

/-- C7 counterexample: a metadata document lacking the `cards`, `sections`
and `links` keys does NOT produce a lookup failure — `metadata.get(key, [])`
substitutes the recoverable default `[]`, and both `get_metadata` and
`get_links` succeed with empty lists. -/
theorem spec_C7_counterexample :
    (get_metadata "beaches" fetchEmptyDoc).2
      = Except.ok (Json.obj [("status", Json.str "success"),
          ("data", Json.obj [("availableEndpoints", Json.arr []),
            ("sections", Json.arr [])])]) ∧
    (get_links "beaches" none fetchEmptyDoc).2
      = Except.ok (linksEnvelope (Json.arr [])) :=
  ⟨rfl, rfl⟩

/-- C7 (amended): an expected field missing INSIDE a record is an uncaught
lookup failure — a card lacking `id` makes `get_metadata` raise
`KeyError("id")` — but a document lacking the top-level `cards`, `sections`
or `links` key is defensively defaulted to `[]` and the operation succeeds
(here witnessed for `get_metadata` on the empty document). -/
theorem spec_C7_amended (subject : String) (fetch : String → HttpResponse)
    (members : List (String × Json)) (rest : List Json)
    (hsub : subject ∈ SUBJECTS)
    (hok : isSuccessStatus (fetch (METADATA_BASE_URL ++ "/" ++ subject)).status = true)
    (hcards : pyDictGet (clean_json (fetch (METADATA_BASE_URL ++ "/" ++ subject)).body)
        "cards" (Json.arr []) = Except.ok (Json.arr (Json.obj members :: rest)))
    (hmiss : members.lookup "id" = none) :
    (get_metadata subject fetch).2 = Except.error (PyError.keyError "id") ∧
    (get_metadata "beaches" fetchEmptyDoc).2
      = Except.ok (Json.obj [("status", Json.str "success"),
          ("data", Json.obj [("availableEndpoints", Json.arr []),
            ("sections", Json.arr [])])]) := by
  refine ⟨?_, rfl⟩
  simp only [get_metadata, if_pos hsub, if_pos hok]
  unfold metadataBody
  rw [hcards]
  simp [Bind.bind, Except.bind, pyList, mapExcept, cleanCard, pySubscript, hmiss]

/-- A card record lacking its `id` field. -/
def cardNoId : Json := Json.obj [("endPointName", Json.str "e")]

/-- A fetch stub whose metadata document has one card, lacking `id`. -/
def fetchCardNoId : String → HttpResponse :=
  fun _ => ⟨200, Json.obj [("cards", Json.arr [cardNoId])]⟩

/-- Witness for the amended C7 at concrete inputs. -/
theorem spec_C7_amended_witness :
    (get_metadata "beaches" fetchCardNoId).2 = Except.error (PyError.keyError "id") ∧
    (get_metadata "beaches" fetchEmptyDoc).2
      = Except.ok (Json.obj [("status", Json.str "success"),
          ("data", Json.obj [("availableEndpoints", Json.arr []),
            ("sections", Json.arr [])])]) :=
  spec_C7_amended "beaches" fetchCardNoId [("endPointName", Json.str "e")] []
    (by decide) (by rfl) (by rfl) (by rfl)

/-! ## C9: termination of the trim pass -/

mutual
/-- A fuelled interpreter for the recursion of `clean_json`: each recursive
call consumes one unit of fuel and the interpreter answers `none` when the
fuel runs out before the recursion bottoms out. -/
def cleanJsonFuel : Nat → Json → Option Json
  | 0, _ => none
  | fuel+1, .obj members => (cleanMembersFuel fuel members).map Json.obj
  | fuel+1, .arr elems => (cleanElemsFuel fuel elems).map Json.arr
  | _+1, .str s => some (.str (pyStrip s))
  | _+1, .num n => some (.num n)
  | _+1, .bool b => some (.bool b)
  | _+1, .null => some .null

/-- Fuelled traversal of object members. -/
def cleanMembersFuel : Nat → List (String × Json) → Option (List (String × Json))
  | 0, _ => none
  | _+1, [] => some []
  | fuel+1, (k, v) :: rest => do
    let v' ← cleanJsonFuel fuel v
    let rest' ← cleanMembersFuel fuel rest
    some ((k, v') :: rest')

/-- Fuelled traversal of array elements. -/
def cleanElemsFuel : Nat → List Json → Option (List Json)
  | 0, _ => none
  | _+1, [] => some []
  | fuel+1, x :: rest => do
    let x' ← cleanJsonFuel fuel x
    let rest' ← cleanElemsFuel fuel rest
    some (x' :: rest')
end

mutual
/-- The recursion depth `clean_json` needs on `t` (an upper bound on the
fuel the interpreter consumes). -/
def fuelNeeded : Json → Nat
  | .obj members => fuelNeededMembers members + 1
  | .arr elems => fuelNeededElems elems + 1
  | _ => 1

/-- Depth needed for the member traversal. -/
def fuelNeededMembers : List (String × Json) → Nat
  | [] => 1
  | (_, v) :: rest => max (fuelNeeded v) (fuelNeededMembers rest) + 1

/-- Depth needed for the element traversal. -/
def fuelNeededElems : List Json → Nat
  | [] => 1
  | x :: rest => max (fuelNeeded x) (fuelNeededElems rest) + 1
end

mutual
theorem cleanJsonFuel_eq : ∀ (t : Json) (fuel : Nat), fuelNeeded t ≤ fuel →
    cleanJsonFuel fuel t = some (clean_json t)
  | t, 0, h => absurd h (by cases t <;> simp [fuelNeeded])
  | .obj members, fuel+1, h => by
    have hm : fuelNeededMembers members ≤ fuel := by
      simp only [fuelNeeded] at h
      omega
    simp [cleanJsonFuel, clean_json, cleanMembersFuel_eq members fuel hm]
  | .arr elems, fuel+1, h => by
    have he : fuelNeededElems elems ≤ fuel := by
      simp only [fuelNeeded] at h
      omega
    simp [cleanJsonFuel, clean_json, cleanElemsFuel_eq elems fuel he]
  | .str s, _+1, _ => by simp [cleanJsonFuel, clean_json]
  | .num n, _+1, _ => by simp [cleanJsonFuel, clean_json]
  | .bool b, _+1, _ => by simp [cleanJsonFuel, clean_json]
  | .null, _+1, _ => by simp [cleanJsonFuel, clean_json]
termination_by t _ _ => sizeOf t

theorem cleanMembersFuel_eq : ∀ (members : List (String × Json)) (fuel : Nat),
    fuelNeededMembers members ≤ fuel →
    cleanMembersFuel fuel members = some (cleanMembers members)
  | [], 0, h => absurd h (by simp [fuelNeededMembers])
  | [], _+1, _ => by simp [cleanMembersFuel, cleanMembers]
  | (_, _) :: _, 0, h => absurd h (by simp [fuelNeededMembers])
  | (k, v) :: rest, fuel+1, h => by
    have h1 : fuelNeeded v ≤ fuel := by
      simp only [fuelNeededMembers] at h
      omega
    have h2 : fuelNeededMembers rest ≤ fuel := by
      simp only [fuelNeededMembers] at h
      omega
    simp [cleanMembersFuel, cleanMembers, cleanJsonFuel_eq v fuel h1,
      cleanMembersFuel_eq rest fuel h2]
termination_by members _ _ => sizeOf members

theorem cleanElemsFuel_eq : ∀ (elems : List Json) (fuel : Nat),
    fuelNeededElems elems ≤ fuel →
    cleanElemsFuel fuel elems = some (cleanElems elems)
  | [], 0, h => absurd h (by simp [fuelNeededElems])
  | [], _+1, _ => by simp [cleanElemsFuel, cleanElems]
  | _ :: _, 0, h => absurd h (by simp [fuelNeededElems])
  | x :: rest, fuel+1, h => by
    have h1 : fuelNeeded x ≤ fuel := by
      simp only [fuelNeededElems] at h
      omega
    have h2 : fuelNeededElems rest ≤ fuel := by
      simp only [fuelNeededElems] at h
      omega
    simp [cleanElemsFuel, cleanElems, cleanJsonFuel_eq x fuel h1,
      cleanElemsFuel_eq rest fuel h2]
termination_by elems _ _ => sizeOf elems
end

/-- C9: the recursive trim pass terminates on every finite JSON tree: the
fuelled interpreter `cleanJsonFuel`, which models the recursion and answers
`none` if the call depth exceeds its fuel, completes with the (total)
`clean_json` result on any fuel at least `fuelNeeded t` — every finite tree
is processed within a finite recursion depth. -/
theorem spec_C9 (t : Json) (fuel : Nat) (h : fuelNeeded t ≤ fuel) :
    cleanJsonFuel fuel t = some (clean_json t) :=
  cleanJsonFuel_eq t fuel h

/-- Witness for C9 at a concrete two-level tree. -/
theorem spec_C9_witness :
    fuelNeeded (Json.obj [("a", Json.str "  x ")]) ≤ 3 ∧
    cleanJsonFuel 3 (Json.obj [("a", Json.str "  x ")])
      = some (clean_json (Json.obj [("a", Json.str "  x ")])) :=
  ⟨by simp [fuelNeeded, fuelNeededMembers],
   spec_C9 (Json.obj [("a", Json.str "  x ")]) 3
     (by simp [fuelNeeded, fuelNeededMembers])⟩

end ILHealth
